import Mathlib

/-!
Verification of the csv-datastream ingestion-and-aggregation core
(`src/lib/utils/csv-parser.ts` and `src/lib/components/CSVProcessor.svelte`)
against its natural-language specification.

Embedding conventions:
* A decoded CSV row (a JavaScript object mapping column names to string
  values) is an association list in insertion order; field access
  (`row.Key`, which yields `undefined` for an absent key) is `getField`,
  returning `Option String`.
* The JavaScript `Map` used for the location index is an association list in
  insertion order (`LocationIndex`); `Map.get` is `assocGet`.
* JavaScript numbers produced by `parseFloat` are modelled exactly: a value
  is `nan`, `posInf`, `negInf` or a finite rational (float rounding is not
  modelled; the mantissa/exponent are kept as exact rationals).
* Code that can throw a runtime `TypeError` (reading a field of `undefined`)
  is modelled with `Option`: `none` is the thrown exception.
-/

namespace CsvDatastream

/-- One decoded CSV row: a JavaScript object as an ordered association list
from column name to string value (`header: true`, `dynamicTyping: false`
keep every value a string). -/
abbrev DataStreamRecord := List (String × String)

/-- JavaScript field access `row[key]` / `row.key`: the first entry with the
given key, `none` when the key is absent (JS `undefined`). -/
def getField (row : DataStreamRecord) (key : String) : Option String :=
  (row.find? (fun p => p.1 == key)).map (fun p => p.2)

/-- The JavaScript `key in row` test: the key exists as a mapping entry. -/
def hasCol (row : DataStreamRecord) (key : String) : Bool :=
  row.any (fun p => p.1 == key)

/-- JavaScript truthiness of a possibly-absent string: `undefined` and the
empty string are falsy, every other string is truthy. -/
def truthy : Option String → Bool
  | none => false
  | some s => !(s == "")

/-! ## JavaScript `parseFloat` -/

/-- The result of JavaScript `parseFloat`: not-a-number, an infinity, or a
finite value (kept as an exact rational). -/
inductive JSNum where
  | nan : JSNum
  | posInf : JSNum
  | negInf : JSNum
  | finite : ℚ → JSNum
deriving DecidableEq, Repr

/-- Whitespace skipped by `parseFloat` before the number. -/
def isJSWhitespace (c : Char) : Bool :=
  c == ' ' || c == '\t' || c == '\n' || c == '\r' || c == '\x0b' || c == '\x0c'

/-- The natural number denoted by a run of decimal digits. -/
def digitsToNat (ds : List Char) : ℕ :=
  ds.foldl (fun n c => 10 * n + (c.toNat - '0'.toNat)) 0

/-- The exponent part of a decimal literal (`e`/`E`, optional sign, digits);
`0` when no well-formed exponent part follows (`parseFloat` stops at the
longest valid prefix, so `"1e"` reads as `1`). -/
def parseExponentPart (cs : List Char) : ℤ :=
  match cs with
  | c :: t =>
    if c == 'e' || c == 'E' then
      match t with
      | s :: t2 =>
        if s == '+' then
          (let eds := t2.takeWhile (fun d => d.isDigit)
           if eds.isEmpty then 0 else (digitsToNat eds : ℤ))
        else if s == '-' then
          (let eds := t2.takeWhile (fun d => d.isDigit)
           if eds.isEmpty then 0 else -(digitsToNat eds : ℤ))
        else
          (let eds := t.takeWhile (fun d => d.isDigit)
           if eds.isEmpty then 0 else (digitsToNat eds : ℤ))
      | [] => 0
    else 0
  | [] => 0

/-- An unsigned decimal literal prefix (`digits [. digits] [exponent]`);
`none` when not even one digit is present (`parseFloat` then yields `NaN`). -/
def parseUnsignedDecimal (cs : List Char) : Option ℚ :=
  let intDigits := cs.takeWhile (fun c => c.isDigit)
  let rest1 := cs.dropWhile (fun c => c.isDigit)
  let fracDigits :=
    match rest1 with
    | '.' :: t => t.takeWhile (fun c => c.isDigit)
    | _ => []
  let rest2 :=
    match rest1 with
    | '.' :: t => t.dropWhile (fun c => c.isDigit)
    | _ => rest1
  if intDigits.isEmpty && fracDigits.isEmpty then none
  else
    let mantissa : ℚ :=
      (digitsToNat intDigits : ℚ) + (digitsToNat fracDigits : ℚ) / ((10 : ℚ) ^ fracDigits.length)
    some (mantissa * (10 : ℚ) ^ parseExponentPart rest2)

/-- After the optional sign: `Infinity`, a decimal literal, or `NaN`. -/
def parseAfterSign (neg : Bool) (cs : List Char) : JSNum :=
  if cs.take 8 = "Infinity".toList then
    (if neg then JSNum.negInf else JSNum.posInf)
  else
    match parseUnsignedDecimal cs with
    | some q => JSNum.finite (if neg then -q else q)
    | none => JSNum.nan

/-- JavaScript `parseFloat`: skip leading whitespace, optional sign, then the
longest `Infinity`-or-decimal prefix; `NaN` when nothing parses. -/
def jsParseFloat (s : String) : JSNum :=
  match s.data.dropWhile isJSWhitespace with
  | '+' :: rest => parseAfterSign false rest
  | '-' :: rest => parseAfterSign true rest
  | cs => parseAfterSign false cs

/-! ## Location index (`indexRecordsByLocation`) -/

/-- The `Map<string, DataStreamRecord[]>` of the source, as an association
list in key-insertion order (a JavaScript `Map` iterates in that order). -/
abbrev LocationIndex := List (String × List DataStreamRecord)

/-- `Map.get`: the group stored under a key, `none` when the key is absent. -/
def assocGet : LocationIndex → String → Option (List DataStreamRecord)
  | [], _ => none
  | (k, g) :: rest, key => if k == key then some g else assocGet rest key

/-- The body of the indexing loop for one present key: `set(key, [])` when the
key is absent (appending the new key at the end, as a `Map` does) fused with
`get(key)!.push(record)`. -/
def assocPush (locationMap : LocationIndex) (key : String)
    (record : DataStreamRecord) : LocationIndex :=
  match locationMap with
  | [] => [(key, [record])]
  | (k, g) :: rest =>
    if k == key then (k, g ++ [record]) :: rest
    else (k, g) :: assocPush rest key record

/-- One iteration of the `for (const record of records)` loop of
`indexRecordsByLocation`: skip when `!locationId` (absent or empty string),
otherwise push onto that key's group. -/
def indexStep (locationMap : LocationIndex) (record : DataStreamRecord) :
    LocationIndex :=
  match getField record "MonitoringLocationID" with
  | none => locationMap
  | some locationId =>
    if locationId == "" then locationMap
    else assocPush locationMap locationId record

/-- `indexRecordsByLocation`: group the records by `MonitoringLocationID`,
skipping records whose id is absent or empty. -/
def indexRecordsByLocation (records : List DataStreamRecord) : LocationIndex :=
  records.foldl indexStep []

/-! ## Temperature aggregation (`calculateTemperatureAverageFromIndex`) -/

/-- The `TemperatureResult` interface of `datastream.ts`. -/
structure TemperatureResult where
  monitoringLocationId : String
  average : ℚ
  count : ℕ
  validValues : List ℚ
deriving DecidableEq, Repr

/-- `parseFloat(record.ResultValue)`: an absent field is `undefined`, which
`parseFloat` coerces to the unparsable text `"undefined"`, hence `NaN`. -/
def resultValueNum (record : DataStreamRecord) : JSNum :=
  match getField record "ResultValue" with
  | some s => jsParseFloat s
  | none => JSNum.nan

/-- One iteration of the accumulation loop of
`calculateTemperatureAverageFromIndex`: when the record's
`CharacteristicName` is exactly `"Temperature, water"` and its parsed
`ResultValue` is finite (`!isNaN(value) && isFinite(value)`), push the value;
otherwise leave `validValues` unchanged. -/
def aggStep (validValues : List ℚ) (record : DataStreamRecord) : List ℚ :=
  if getField record "CharacteristicName" = some "Temperature, water" then
    match resultValueNum record with
    | JSNum.finite value => validValues ++ [value]
    | _ => validValues
  else validValues

/-- The accumulation loop of `calculateTemperatureAverageFromIndex`: keep, in
encounter order, the parsed `ResultValue` of each record whose
`CharacteristicName` is exactly `"Temperature, water"`, dropping values whose
parse is `NaN` or infinite. -/
def collectValidValues (locationRecords : List DataStreamRecord) : List ℚ :=
  locationRecords.foldl aggStep []

/-- `calculateTemperatureAverageFromIndex`: look the location up in the index
(`|| []` for an absent key), collect the valid temperature values, and average
them (`0` when there are none). -/
def calculateTemperatureAverageFromIndex (recordsIndex : LocationIndex)
    (monitoringLocationId : String) : TemperatureResult :=
  let locationRecords := (assocGet recordsIndex monitoringLocationId).getD []
  let validValues := collectValidValues locationRecords
  let average : ℚ :=
    if validValues.length > 0 then
      (validValues.foldl (fun sum val => sum + val) 0) / (validValues.length : ℚ)
    else 0
  { monitoringLocationId := monitoringLocationId
    average := average
    count := validValues.length
    validValues := validValues }

/-! ## Monitoring locations (`getMonitoringLocationsWithNamesFromIndex`) -/

/-- The `MonitoringLocation` interface of `datastream.ts`. -/
structure MonitoringLocation where
  id : String
  name : String
  displayName : String
deriving DecidableEq, Repr

/-- `firstRecord.MonitoringLocationName || locationId`: the first record's
name when present and non-empty (truthy), else the location id. -/
def locationName (locationId : String) (firstRecord : DataStreamRecord) : String :=
  match getField firstRecord "MonitoringLocationName" with
  | none => locationId
  | some n => if n == "" then locationId else n

/-- One pushed entry of the `getMonitoringLocationsWithNamesFromIndex` loop:
`{id, name, displayName: `"{name} ({id})"`}`. -/
def mkMonitoringLocation (locationId : String) (firstRecord : DataStreamRecord) :
    MonitoringLocation :=
  let name := locationName locationId firstRecord
  { id := locationId
    name := name
    displayName := name ++ " (" ++ locationId ++ ")" }

/-- The entry loop of `getMonitoringLocationsWithNamesFromIndex`: for each
index entry, read `locationRecords[0]` and build a location. Reading
`firstRecord.MonitoringLocationName` when the group is empty would throw a
`TypeError` (`locationRecords[0]` is `undefined`); that throw is `none`. -/
def collectLocations : LocationIndex → Option (List MonitoringLocation)
  | [] => some []
  | (locationId, locationRecords) :: rest =>
    match locationRecords.head? with
    | none => none
    | some firstRecord =>
      (collectLocations rest).map
        (fun locations => mkMonitoringLocation locationId firstRecord :: locations)

/-- `getMonitoringLocationsWithNamesFromIndex`: build one location per index
entry, then `locations.sort((a, b) => a.name.localeCompare(b.name))`.
`localeCompare` is locale-dependent, so the comparison is a parameter
`nameLe` (a total preorder on strings; `nameLe a b` stands for
`a.localeCompare(b) <= 0`); the stable JavaScript sort is a stable
insertion sort on that comparison. `none` models the `TypeError` thrown on
an empty group. -/
def getMonitoringLocationsWithNamesFromIndex (nameLe : String → String → Bool)
    (recordsIndex : LocationIndex) : Option (List MonitoringLocation) :=
  (collectLocations recordsIndex).map
    (fun locations => locations.insertionSort (fun a b => nameLe a.name b.name = true))

/-! ## Decode completion (`parseCSVFile`, `complete:` callback) -/

/-- The terminal decode failures raised by the `complete:` callback of
`parseCSVFile` (rejections of the returned promise). -/
inductive ParseError where
  | emptyInput : ParseError
  | schemaError : List String → ParseError
deriving DecidableEq, Repr

/-- The message of each rejection: `"No data found in CSV file"` and
`"Missing required columns: "` followed by the missing keys joined by
`", "`. -/
def parseErrorMessage : ParseError → String
  | ParseError.emptyInput => "No data found in CSV file"
  | ParseError.schemaError missingColumns =>
    "Missing required columns: " ++ String.intercalate ", " missingColumns

/-- The `requiredColumns` array of `parseCSVFile`. -/
def requiredColumns : List String :=
  ["MonitoringLocationID", "CharacteristicName", "ResultValue"]

/-- The validation of the `complete:` callback: reject with `EmptyInputError`
when no records accumulated; otherwise reject with `SchemaError` listing the
required columns absent from the first record (`!(col in firstRecord)`), when
any; otherwise resolve with the records. -/
def validateParsedRecords (allRecords : List DataStreamRecord) :
    Except ParseError (List DataStreamRecord) :=
  match allRecords with
  | [] => Except.error ParseError.emptyInput
  | firstRecord :: rest =>
    let missingColumns := requiredColumns.filter (fun col => !(hasCol firstRecord col))
    if missingColumns.length > 0 then
      Except.error (ParseError.schemaError missingColumns)
    else Except.ok (firstRecord :: rest)

/-! ## Batch accumulation and worker-mode trimming (`chunk:` callback) -/

/-- One JavaScript object assignment `trimmedRow[trimmedKey] = value`: replace
the value in place when the key already exists, else append the new entry. -/
def objSet (row : DataStreamRecord) (key value : String) : DataStreamRecord :=
  if row.any (fun p => p.1 == key) then
    row.map (fun p => if p.1 == key then (key, value) else p)
  else row ++ [(key, value)]

/-- The per-row trimming of the `chunk:` callback in worker mode: rebuild the
row with each key trimmed and each (string) value trimmed, in key-insertion
order. Every value is a string here (`dynamicTyping: false`), so the
`typeof row[key] === "string"` guard always takes the trimming branch. -/
def trimRecord (row : DataStreamRecord) : DataStreamRecord :=
  row.foldl (fun trimmedRow p => objSet trimmedRow p.1.trim p.2.trim) []

/-- One `chunk:` callback: when the batch is non-empty, append it to the
accumulated records, mapping `trimRecord` over it exactly when `useWorker` is
set (the worker decode does not trim internally; the non-worker decode path
pushes the batch unchanged). -/
def accumulateChunk (useWorker : Bool) (allRecords : List DataStreamRecord)
    (chunkData : List DataStreamRecord) : List DataStreamRecord :=
  if chunkData.length > 0 then
    allRecords ++ (if useWorker then chunkData.map trimRecord else chunkData)
  else allRecords

/-- The records accumulated over a whole decode: the `chunk:` callback runs
once per delivered batch, in delivery order, starting from `[]`. -/
def accumulateChunks (useWorker : Bool) (chunks : List (List DataStreamRecord)) :
    List DataStreamRecord :=
  chunks.foldl (accumulateChunk useWorker) []

/-! ## Progress reporting (`onProgress`) -/

/-- The argument of a `ParseProgressCallback` invocation. -/
structure ProgressUpdate where
  bytesProcessed : ℕ
  totalBytes : ℕ
  percentage : ℕ
deriving DecidableEq, Repr

/-- The `onProgress` payload of one `chunk:` callback whose `results.meta.cursor`
is defined: `Math.floor((bytesProcessed / totalBytes) * 100)` is floor
division on exact numbers. -/
def chunkProgress (totalBytes : ℕ) (cursor : ℕ) : ProgressUpdate :=
  { bytesProcessed := cursor
    totalBytes := totalBytes
    percentage := cursor * 100 / totalBytes }

/-- All progress notifications of one successful decode with a registered
`onProgress`. The decode engine reports a byte cursor per batch (`none` when
`results.meta.cursor` is undefined, in which case no notification fires); on
`complete:` a final `{totalBytes, totalBytes, 100}` notification always
fires. -/
def progressTrace (totalBytes : ℕ) (cursors : List (Option ℕ)) :
    List ProgressUpdate :=
  (cursors.filterMap (fun c => c.map (chunkProgress totalBytes))) ++
    [{ bytesProcessed := totalBytes, totalBytes := totalBytes, percentage := 100 }]

/-! ## Component state (`CSVProcessor.svelte`, `processFile`) -/

/-- The ingestion-related state of `CSVProcessor.svelte`: the parsed records,
the location index, the derived locations, the last aggregation result and
the error banner. -/
structure ProcessorState where
  records : List DataStreamRecord
  recordsIndex : LocationIndex
  monitoringLocations : List MonitoringLocation
  result : Option TemperatureResult
  error : Option String
deriving DecidableEq, Repr

/-- The `catch` block of `processFile`: set the error banner and clear the
records, the index and the locations (the result is left as it was). -/
def failedState (s : ProcessorState) : ProcessorState :=
  { s with
    error := some "Failed to process CSV file"
    records := []
    recordsIndex := []
    monitoringLocations := [] }

/-- `processFile`, as a transition on the component state: `error = null` on
entry; on a parse rejection, or zero parsed records, or a throwing location
derivation, or zero derived locations, the `catch` block runs; otherwise the
new records, index and locations are committed and `result` is cleared. -/
def processFile (nameLe : String → String → Bool) (s : ProcessorState)
    (parseOutcome : Except ParseError (List DataStreamRecord)) : ProcessorState :=
  let s0 := { s with error := none }
  match parseOutcome with
  | Except.error _ => failedState s0
  | Except.ok parsedRecords =>
    if parsedRecords.length = 0 then failedState s0
    else
      let s1 := { s0 with records := parsedRecords }
      let recordsIndex := indexRecordsByLocation parsedRecords
      let s2 := { s1 with recordsIndex := recordsIndex }
      match getMonitoringLocationsWithNamesFromIndex nameLe recordsIndex with
      | none => failedState s2
      | some locations =>
        if locations.length = 0 then failedState s2
        else { s2 with monitoringLocations := locations, result := none }

/-! ## Specification-side helpers -/

/-- The value a record contributes to `validValues`, if any: the parsed
`ResultValue` when `CharacteristicName` is exactly `"Temperature, water"`
and the parse is finite; `none` otherwise. -/
def tempValue? (record : DataStreamRecord) : Option ℚ :=
  if getField record "CharacteristicName" = some "Temperature, water" then
    match resultValueNum record with
    | JSNum.finite value => some value
    | _ => none
  else none

/-! ## Lemmas about the aggregation loop -/

theorem aggStep_eq_append (validValues : List ℚ) (record : DataStreamRecord) :
    aggStep validValues record = validValues ++ (tempValue? record).toList := by
  unfold aggStep tempValue?
  split
  · cases resultValueNum record <;> simp
  · simp

theorem foldl_aggStep_eq (locationRecords : List DataStreamRecord) :
    ∀ validValues : List ℚ,
      locationRecords.foldl aggStep validValues =
        validValues ++ locationRecords.filterMap tempValue? := by
  induction locationRecords with
  | nil => intro validValues; simp
  | cons record rest ih =>
    intro validValues
    rw [List.foldl_cons, ih, aggStep_eq_append, List.filterMap_cons]
    cases h : tempValue? record <;> simp [h]

theorem collectValidValues_eq (locationRecords : List DataStreamRecord) :
    collectValidValues locationRecords = locationRecords.filterMap tempValue? := by
  unfold collectValidValues
  rw [foldl_aggStep_eq]
  simp

/-- Claim C1: for every location index and target location id, the aggregator
returns `validValues` equal, in encounter order within the target's record
group, to exactly the parsed values of the records whose `CharacteristicName`
is exactly `"Temperature, water"` and whose `ResultValue` parses to a finite
number (malformed and non-finite values are dropped); `count` is the length
of `validValues`; and `average` is the arithmetic mean of `validValues`, or
`0` when `count` is `0`. -/
theorem C1_aggregate_functional_correctness (recordsIndex : LocationIndex)
    (monitoringLocationId : String) :
    let validValues :=
      ((assocGet recordsIndex monitoringLocationId).getD []).filterMap tempValue?
    calculateTemperatureAverageFromIndex recordsIndex monitoringLocationId =
      { monitoringLocationId := monitoringLocationId
        average :=
          if validValues.length = 0 then 0
          else validValues.sum / (validValues.length : ℚ)
        count := validValues.length
        validValues := validValues } := by
  intro validValues
  unfold calculateTemperatureAverageFromIndex
  dsimp only
  rw [collectValidValues_eq]
  have hsum :
      (((assocGet recordsIndex monitoringLocationId).getD []).filterMap
          tempValue?).foldl (fun sum val => sum + val) 0 =
        (((assocGet recordsIndex monitoringLocationId).getD []).filterMap
          tempValue?).sum :=
    List.sum_eq_foldl.symm
  rw [hsum]
  by_cases h :
      (((assocGet recordsIndex monitoringLocationId).getD []).filterMap
        tempValue?).length = 0
  · simp [validValues, h]
  · simp [validValues, h, Nat.pos_of_ne_zero h]

/-- Claim C4: aggregation at a location id that is not a key of the index
yields the queried id with average `0`, count `0` and no values (and, being
a total function, never throws). -/
theorem C4_unknown_location (recordsIndex : LocationIndex)
    (monitoringLocationId : String)
    (h : assocGet recordsIndex monitoringLocationId = none) :
    calculateTemperatureAverageFromIndex recordsIndex monitoringLocationId =
      { monitoringLocationId := monitoringLocationId
        average := 0
        count := 0
        validValues := [] } := by
  unfold calculateTemperatureAverageFromIndex
  rw [h]
  rfl

/-- Witness for C4 at a concrete empty index and the id `"does-not-exist"`. -/
theorem C4_unknown_location_witness :
    calculateTemperatureAverageFromIndex [] "does-not-exist" =
      { monitoringLocationId := "does-not-exist"
        average := 0
        count := 0
        validValues := [] } :=
  C4_unknown_location [] "does-not-exist" rfl

/-! ## Lemmas about the location index -/

theorem assocGet_assocPush_self (locationMap : LocationIndex) (key : String)
    (record : DataStreamRecord) :
    assocGet (assocPush locationMap key record) key =
      some ((assocGet locationMap key).getD [] ++ [record]) := by
  induction locationMap with
  | nil => simp [assocPush, assocGet]
  | cons p rest ih =>
    obtain ⟨k, g⟩ := p
    by_cases h : k = key
    · simp [assocPush, assocGet, h]
    · simp [assocPush, assocGet, h, ih]

theorem assocGet_assocPush_ne (locationMap : LocationIndex) (key other : String)
    (record : DataStreamRecord) (h : other ≠ key) :
    assocGet (assocPush locationMap key record) other = assocGet locationMap other := by
  have h2 : key ≠ other := Ne.symm h
  induction locationMap with
  | nil => simp [assocPush, assocGet, h2]
  | cons p rest ih =>
    obtain ⟨k, g⟩ := p
    by_cases hk : k = key
    · subst hk
      simp [assocPush, assocGet, h2]
    · by_cases ho : k = other <;> simp [assocPush, assocGet, hk, ho, ih, h]

theorem sizes_assocPush (locationMap : LocationIndex) (key : String)
    (record : DataStreamRecord) :
    ((assocPush locationMap key record).map (fun p => p.2.length)).sum =
      (locationMap.map (fun p => p.2.length)).sum + 1 := by
  induction locationMap with
  | nil => simp [assocPush]
  | cons p rest ih =>
    obtain ⟨k, g⟩ := p
    by_cases h : k = key
    · simp [assocPush, h]
      omega
    · simp [assocPush, h, ih]
      omega

theorem mem_assocPush_groups (locationMap : LocationIndex) (key : String)
    (record : DataStreamRecord) :
    (∀ p ∈ locationMap, p.2 ≠ []) →
      ∀ p ∈ assocPush locationMap key record, p.2 ≠ [] := by
  induction locationMap with
  | nil =>
    intro _ p hp
    simp [assocPush] at hp
    simp [hp]
  | cons q rest ih =>
    obtain ⟨k, g⟩ := q
    intro hgroups p hp
    have hg : g ≠ [] := hgroups (k, g) (List.mem_cons_self _ _)
    have hrest : ∀ q ∈ rest, q.2 ≠ [] :=
      fun q hq => hgroups q (List.mem_cons_of_mem _ hq)
    by_cases h : k = key
    · simp [assocPush, h] at hp
      rcases hp with rfl | hp
      · simp
      · exact hrest p hp
    · simp [assocPush, h] at hp
      rcases hp with rfl | hp
      · exact hg
      · exact ih hrest p hp

theorem foldl_indexStep_assocGet (records : List DataStreamRecord) :
    ∀ (locationMap : LocationIndex) (locId : String), locId ≠ "" →
      (assocGet (records.foldl indexStep locationMap) locId).getD [] =
        (assocGet locationMap locId).getD [] ++
          records.filter (fun r => getField r "MonitoringLocationID" == some locId) := by
  induction records with
  | nil => intro locationMap locId _; simp
  | cons record rest ih =>
    intro locationMap locId hne
    rw [List.foldl_cons, ih _ _ hne, List.filter_cons]
    cases h : getField record "MonitoringLocationID" with
    | none => simp [indexStep, h]
    | some lid =>
      by_cases hempty : lid = ""
      · subst hempty
        simp [indexStep, h, Ne.symm hne]
      · simp only [indexStep, h]
        rw [if_neg (by simpa using hempty)]
        by_cases hsame : lid = locId
        · subst hsame
          rw [assocGet_assocPush_self]
          simp [h, List.append_assoc]
        · rw [assocGet_assocPush_ne _ _ _ _ (Ne.symm hsame)]
          simp [h, hsame]

theorem foldl_indexStep_sizes (records : List DataStreamRecord) :
    ∀ locationMap : LocationIndex,
      (((records.foldl indexStep locationMap).map (fun p => p.2.length)).sum =
        (locationMap.map (fun p => p.2.length)).sum +
          (records.filter
            (fun r => truthy (getField r "MonitoringLocationID"))).length) := by
  induction records with
  | nil => intro locationMap; simp
  | cons record rest ih =>
    intro locationMap
    rw [List.foldl_cons, ih, List.filter_cons]
    cases h : getField record "MonitoringLocationID" with
    | none => simp [indexStep, h, truthy]
    | some lid =>
      by_cases hempty : lid = ""
      · subst hempty
        simp [indexStep, h, truthy]
      · simp only [indexStep, h, truthy]
        rw [if_neg (by simpa using hempty)]
        rw [sizes_assocPush]
        have hb : (lid == "") = false := beq_eq_false_iff_ne.mpr hempty
        simp [hb]
        omega

theorem foldl_indexStep_empty_key (records : List DataStreamRecord) :
    ∀ locationMap : LocationIndex, assocGet locationMap "" = none →
      assocGet (records.foldl indexStep locationMap) "" = none := by
  induction records with
  | nil => intro locationMap hm; simpa using hm
  | cons record rest ih =>
    intro locationMap hm
    rw [List.foldl_cons]
    apply ih
    cases h : getField record "MonitoringLocationID" with
    | none => simpa [indexStep, h] using hm
    | some lid =>
      by_cases hempty : lid = ""
      · subst hempty; simpa [indexStep, h] using hm
      · simp only [indexStep, h]
        rw [if_neg (by simpa using hempty)]
        rw [assocGet_assocPush_ne _ _ _ _ (fun e => hempty e.symm)]
        exact hm

theorem foldl_indexStep_groups (records : List DataStreamRecord) :
    ∀ locationMap : LocationIndex, (∀ p ∈ locationMap, p.2 ≠ []) →
      ∀ p ∈ records.foldl indexStep locationMap, p.2 ≠ [] := by
  induction records with
  | nil => intro locationMap hm; simpa using hm
  | cons record rest ih =>
    intro locationMap hm
    rw [List.foldl_cons]
    apply ih
    cases h : getField record "MonitoringLocationID" with
    | none => simpa [indexStep, h] using hm
    | some lid =>
      by_cases hempty : lid = ""
      · subst hempty; simpa [indexStep, h] using hm
      · simp only [indexStep, h]
        rw [if_neg (by simpa using hempty)]
        exact mem_assocPush_groups _ _ _ hm

theorem index_groups_ne_nil (records : List DataStreamRecord) :
    ∀ p ∈ indexRecordsByLocation records, p.2 ≠ [] :=
  foldl_indexStep_groups records [] (by simp)

/-- Claim C2: the index maps each non-empty location id to exactly the
subsequence of input records whose `MonitoringLocationID` equals it, in
original input order (an id that never occurs maps to the empty group); and
the group lengths sum to the number of records whose `MonitoringLocationID`
is present and non-empty. -/
theorem C2_index_completeness_and_order (records : List DataStreamRecord)
    (locId : String) (hne : locId ≠ "") :
    (assocGet (indexRecordsByLocation records) locId).getD [] =
      records.filter (fun r => getField r "MonitoringLocationID" == some locId) ∧
    ((indexRecordsByLocation records).map (fun p => p.2.length)).sum =
      (records.filter (fun r => truthy (getField r "MonitoringLocationID"))).length := by
  constructor
  · have h := foldl_indexStep_assocGet records [] locId hne
    simpa [indexRecordsByLocation] using h
  · have h := foldl_indexStep_sizes records []
    simpa [indexRecordsByLocation] using h

/-- Witness for C2 at a concrete record list and the id `"LOC001"`. -/
theorem C2_index_completeness_and_order_witness :
    (assocGet
        (indexRecordsByLocation
          [[("MonitoringLocationID", "LOC001"), ("ResultValue", "15.5")],
           [("MonitoringLocationID", "LOC002"), ("ResultValue", "16.5")],
           [("MonitoringLocationID", "LOC001"), ("ResultValue", "17.5")],
           [("MonitoringLocationID", ""), ("ResultValue", "18.5")]])
        "LOC001").getD [] =
      ([[("MonitoringLocationID", "LOC001"), ("ResultValue", "15.5")],
        [("MonitoringLocationID", "LOC002"), ("ResultValue", "16.5")],
        [("MonitoringLocationID", "LOC001"), ("ResultValue", "17.5")],
        [("MonitoringLocationID", ""), ("ResultValue", "18.5")]].filter
          (fun r => getField r "MonitoringLocationID" == some "LOC001")) ∧
    ((indexRecordsByLocation
        [[("MonitoringLocationID", "LOC001"), ("ResultValue", "15.5")],
         [("MonitoringLocationID", "LOC002"), ("ResultValue", "16.5")],
         [("MonitoringLocationID", "LOC001"), ("ResultValue", "17.5")],
         [("MonitoringLocationID", ""), ("ResultValue", "18.5")]]).map
        (fun p => p.2.length)).sum =
      ([[("MonitoringLocationID", "LOC001"), ("ResultValue", "15.5")],
        [("MonitoringLocationID", "LOC002"), ("ResultValue", "16.5")],
        [("MonitoringLocationID", "LOC001"), ("ResultValue", "17.5")],
        [("MonitoringLocationID", ""), ("ResultValue", "18.5")]].filter
          (fun r => truthy (getField r "MonitoringLocationID"))).length :=
  C2_index_completeness_and_order _ "LOC001" (by decide)

/-- Claim C6: a record whose `MonitoringLocationID` is absent or empty is
never indexed: the empty string is never a key of the built index, and no
(necessarily empty) group is ever created for such a record — every group of
the built index is non-empty. -/
theorem C6_empty_id_never_indexed (records : List DataStreamRecord) :
    assocGet (indexRecordsByLocation records) "" = none ∧
    ∀ p ∈ indexRecordsByLocation records, p.2 ≠ [] :=
  ⟨foldl_indexStep_empty_key records [] rfl, index_groups_ne_nil records⟩

/-! ## Lemmas about the location deriver -/

theorem collectLocations_length (recordsIndex : LocationIndex) :
    ∀ locations, collectLocations recordsIndex = some locations →
      locations.length = recordsIndex.length := by
  induction recordsIndex with
  | nil =>
    intro locations h
    simp [collectLocations] at h
    simp [← h]
  | cons p rest ih =>
    obtain ⟨locationId, locationRecords⟩ := p
    intro locations h
    cases hh : locationRecords.head? with
    | none => simp [collectLocations, hh] at h
    | some firstRecord =>
      simp only [collectLocations, hh] at h
      cases hr : collectLocations rest with
      | none => simp [hr] at h
      | some locs =>
        rw [hr] at h
        simp only [Option.map_some', Option.some.injEq] at h
        subst h
        simp [ih locs hr]

theorem collectLocations_mem (recordsIndex : LocationIndex) :
    ∀ locations, collectLocations recordsIndex = some locations →
      ∀ p ∈ recordsIndex, ∃ firstRecord, p.2.head? = some firstRecord ∧
        mkMonitoringLocation p.1 firstRecord ∈ locations := by
  induction recordsIndex with
  | nil => intro locations _ p hp; simp at hp
  | cons q rest ih =>
    obtain ⟨locationId, locationRecords⟩ := q
    intro locations h p hp
    cases hh : locationRecords.head? with
    | none => simp [collectLocations, hh] at h
    | some firstRecord =>
      simp only [collectLocations, hh] at h
      cases hr : collectLocations rest with
      | none => simp [hr] at h
      | some locs =>
        rw [hr] at h
        simp only [Option.map_some', Option.some.injEq] at h
        subst h
        rcases List.mem_cons.mp hp with rfl | hmem
        · exact ⟨firstRecord, hh, List.mem_cons_self _ _⟩
        · obtain ⟨r, hr1, hr2⟩ := ih locs hr p hmem
          exact ⟨r, hr1, List.mem_cons_of_mem _ hr2⟩

theorem collectLocations_isSome (recordsIndex : LocationIndex)
    (h : ∀ p ∈ recordsIndex, p.2 ≠ []) :
    (collectLocations recordsIndex).isSome = true := by
  induction recordsIndex with
  | nil => rfl
  | cons p rest ih =>
    obtain ⟨locationId, locationRecords⟩ := p
    have hne : locationRecords ≠ [] := h (locationId, locationRecords) (List.mem_cons_self _ _)
    have hrest : ∀ q ∈ rest, q.2 ≠ [] := fun q hq => h q (List.mem_cons_of_mem _ hq)
    cases hh : locationRecords.head? with
    | none => exact absurd (List.head?_eq_none_iff.mp hh) hne
    | some firstRecord =>
      simp only [collectLocations, hh]
      have := ih hrest
      cases hr : collectLocations rest with
      | none => rw [hr] at this; simp at this
      | some locs => simp

/-- Claim C10 (safety): every group of an index built by
`indexRecordsByLocation` is non-empty, so the unguarded `locationRecords[0]`
read of `getMonitoringLocationsWithNamesFromIndex` never accesses a missing
record (the derivation never returns `none`, the model of the would-be
`TypeError`) on any built index. -/
theorem C10_first_record_access_safe (nameLe : String → String → Bool)
    (records : List DataStreamRecord) :
    (∀ p ∈ indexRecordsByLocation records, p.2 ≠ []) ∧
    (getMonitoringLocationsWithNamesFromIndex nameLe
        (indexRecordsByLocation records)).isSome = true := by
  refine ⟨index_groups_ne_nil records, ?_⟩
  unfold getMonitoringLocationsWithNamesFromIndex
  have h := collectLocations_isSome (indexRecordsByLocation records)
    (index_groups_ne_nil records)
  cases hr : collectLocations (indexRecordsByLocation records) with
  | none => rw [hr] at h; simp at h
  | some locs => simp

/-- Claim C5: the deriver returns one `MonitoringLocation` per index entry,
whose `name` is the first record's `MonitoringLocationName` when present and
non-empty, else the location id, whose `displayName` is `"{name} ({id})"`;
the sequence is sorted ascending by `name` under the (locale-aware, hence
abstract total preorder) comparison; and a zero-entry index yields the empty
sequence. -/
theorem C5_derive_locations (nameLe : String → String → Bool)
    (htrans : ∀ a b c, nameLe a b = true → nameLe b c = true → nameLe a c = true)
    (htotal : ∀ a b, nameLe a b = true ∨ nameLe b a = true)
    (recordsIndex : LocationIndex) (locations : List MonitoringLocation)
    (h : getMonitoringLocationsWithNamesFromIndex nameLe recordsIndex = some locations) :
    locations.length = recordsIndex.length ∧
    (∀ p ∈ recordsIndex, ∃ firstRecord, p.2.head? = some firstRecord ∧
      ∃ l, l ∈ locations ∧ l.id = p.1 ∧ l.name = locationName p.1 firstRecord ∧
        l.displayName = l.name ++ " (" ++ l.id ++ ")") ∧
    List.Sorted (fun a b => nameLe a.name b.name = true) locations ∧
    (recordsIndex = [] → locations = []) := by
  unfold getMonitoringLocationsWithNamesFromIndex at h
  cases hr : collectLocations recordsIndex with
  | none => rw [hr] at h; simp at h
  | some pre =>
    rw [hr] at h
    simp only [Option.map_some', Option.some.injEq] at h
    subst h
    have hperm := List.perm_insertionSort
      (fun a b : MonitoringLocation => nameLe a.name b.name = true) pre
    refine ⟨?_, ?_, ?_, ?_⟩
    · rw [hperm.length_eq]
      exact collectLocations_length recordsIndex pre hr
    · intro p hp
      obtain ⟨firstRecord, h1, h2⟩ := collectLocations_mem recordsIndex pre hr p hp
      refine ⟨firstRecord, h1, mkMonitoringLocation p.1 firstRecord, ?_, rfl, rfl, rfl⟩
      exact hperm.mem_iff.mpr h2
    · haveI : IsTotal MonitoringLocation (fun a b => nameLe a.name b.name = true) :=
        ⟨fun a b => htotal a.name b.name⟩
      haveI : IsTrans MonitoringLocation (fun a b => nameLe a.name b.name = true) :=
        ⟨fun a b c => htrans a.name b.name c.name⟩
      exact List.sorted_insertionSort _ pre
    · intro hidx
      subst hidx
      simp [collectLocations] at hr
      rw [hr]
      rfl

/-- Witness for C5 at a concrete one-entry index, with the trivial total
preorder standing for `localeCompare`. -/
theorem C5_derive_locations_witness :
    ([{ id := "LOC001", name := "Lake", displayName := "Lake (LOC001)" }] :
        List MonitoringLocation).length =
      ([("LOC001", [[("MonitoringLocationName", "Lake")]])] : LocationIndex).length ∧
    (∀ p ∈ ([("LOC001", [[("MonitoringLocationName", "Lake")]])] : LocationIndex),
      ∃ firstRecord, p.2.head? = some firstRecord ∧
      ∃ l, l ∈ ([{ id := "LOC001", name := "Lake", displayName := "Lake (LOC001)" }] :
          List MonitoringLocation) ∧
        l.id = p.1 ∧ l.name = locationName p.1 firstRecord ∧
        l.displayName = l.name ++ " (" ++ l.id ++ ")") ∧
    List.Sorted (fun a b : MonitoringLocation => (fun _ _ : String => true) a.name b.name = true)
      [{ id := "LOC001", name := "Lake", displayName := "Lake (LOC001)" }] ∧
    (([("LOC001", [[("MonitoringLocationName", "Lake")]])] : LocationIndex) = [] →
      ([{ id := "LOC001", name := "Lake", displayName := "Lake (LOC001)" }] :
        List MonitoringLocation) = []) :=
  C5_derive_locations (fun _ _ => true) (fun _ _ _ _ _ => rfl) (fun _ _ => Or.inl rfl)
    [("LOC001", [[("MonitoringLocationName", "Lake")]])]
    [{ id := "LOC001", name := "Lake", displayName := "Lake (LOC001)" }] rfl

/-! ## Decode completion, trimming, progress -/

/-- Claim C3: decode completion fails with `EmptyInputError` when zero row
records were produced; otherwise it fails with `SchemaError` enumerating
exactly the required keys missing from the first record, when any, and
succeeds otherwise — the validation looks at the first record only (the
records after the first are arbitrary here and never examined). -/
theorem C3_completion_validation (firstRecord : DataStreamRecord)
    (rest : List DataStreamRecord) :
    validateParsedRecords [] = Except.error ParseError.emptyInput ∧
    validateParsedRecords (firstRecord :: rest) =
      (if requiredColumns.filter (fun col => !(hasCol firstRecord col)) = []
       then Except.ok (firstRecord :: rest)
       else Except.error (ParseError.schemaError
              (requiredColumns.filter (fun col => !(hasCol firstRecord col))))) := by
  refine ⟨rfl, ?_⟩
  unfold validateParsedRecords
  by_cases h : requiredColumns.filter (fun col => !(hasCol firstRecord col)) = []
  · simp [h]
  · simp only [h, if_false]
    rw [if_pos]
    exact List.length_pos.mpr h

/-- Claim C8: in isolated-context (worker) mode every accumulated record is
the key-and-value-trimmed image of a decoded record, applied by the
caller-side `chunk:` handler batch by batch; without the worker the records
are accumulated untrimmed (the decode engine itself never trims). -/
theorem C8_worker_mode_trimming (chunks : List (List DataStreamRecord)) :
    accumulateChunks true chunks = chunks.flatten.map trimRecord ∧
    accumulateChunks false chunks = chunks.flatten := by
  have key : ∀ (useWorker : Bool) (cs : List (List DataStreamRecord))
      (acc : List DataStreamRecord),
      cs.foldl (accumulateChunk useWorker) acc =
        acc ++ (if useWorker then cs.flatten.map trimRecord else cs.flatten) := by
    intro useWorker cs
    induction cs with
    | nil => intro acc; cases useWorker <;> simp
    | cons c rest ih =>
      intro acc
      rw [List.foldl_cons, ih]
      unfold accumulateChunk
      by_cases h : c.length > 0
      · cases useWorker <;> simp [h, List.append_assoc]
      · have hc : c = [] := by simpa using h
        subst hc
        cases useWorker <;> simp
  exact ⟨by simpa using key true chunks [], by simpa using key false chunks []⟩

/-- Claim C9: with a positive source size, a decode-engine cursor stream that
is monotone and bounded by the source size (the engine's contract), every
delivered notification carries the source's total byte length and a
floor-rounded percentage of its cumulative bytes that is at most 100; the
reported bytes are monotonically non-decreasing across notifications; and the
final notification of a successful completion is exactly
`{totalBytes, totalBytes, 100}`. -/
theorem C9_progress_reporting (totalBytes : ℕ) (cursors : List (Option ℕ))
    (hpos : 0 < totalBytes)
    (hmono : List.Chain' (fun a b => a ≤ b) (cursors.filterMap id))
    (hbound : ∀ c ∈ cursors.filterMap id, c ≤ totalBytes) :
    (∀ u ∈ progressTrace totalBytes cursors,
        u.totalBytes = totalBytes ∧
        u.percentage = u.bytesProcessed * 100 / totalBytes ∧
        u.percentage ≤ 100) ∧
    List.Chain' (fun a b => a ≤ b)
      ((progressTrace totalBytes cursors).map (fun u => u.bytesProcessed)) ∧
    (progressTrace totalBytes cursors).getLast? =
      some { bytesProcessed := totalBytes
             totalBytes := totalBytes
             percentage := 100 } := by
  have hdiv : ∀ c : ℕ, c ≤ totalBytes → c * 100 / totalBytes ≤ 100 := by
    intro c hc
    calc c * 100 / totalBytes ≤ totalBytes * 100 / totalBytes :=
          Nat.div_le_div_right (Nat.mul_le_mul_right 100 hc)
      _ = 100 := Nat.mul_div_cancel_left 100 hpos
  have hmap :
      (cursors.filterMap (fun c => c.map (chunkProgress totalBytes))).map
          (fun u => u.bytesProcessed) =
        cursors.filterMap id := by
    rw [List.map_filterMap]
    congr 1
    funext c
    cases c <;> simp [chunkProgress]
  have htotal100 : totalBytes * 100 / totalBytes = 100 :=
    Nat.mul_div_cancel_left 100 hpos
  refine ⟨?_, ?_, ?_⟩
  · intro u hu
    unfold progressTrace at hu
    rcases List.mem_append.mp hu with hu | hu
    · obtain ⟨c, hc, he⟩ := List.mem_filterMap.mp hu
      cases c with
      | none => simp at he
      | some cv =>
        simp only [Option.map_some', Option.some.injEq] at he
        subst he
        have hcv : cv ∈ cursors.filterMap id :=
          List.mem_filterMap.mpr ⟨some cv, hc, rfl⟩
        exact ⟨rfl, rfl, hdiv cv (hbound cv hcv)⟩
    · simp only [List.mem_singleton] at hu
      subst hu
      exact ⟨rfl, by simpa using htotal100.symm, le_refl 100⟩
  · unfold progressTrace
    rw [List.map_append, hmap]
    rw [List.chain'_append]
    refine ⟨hmono, by simp, ?_⟩
    intro x hx y hy
    simp only [List.map_cons, List.map_nil, List.head?_cons, Option.mem_def,
      Option.some.injEq] at hy
    subst hy
    have hxmem : x ∈ cursors.filterMap id :=
      List.mem_of_mem_getLast? hx
    exact hbound x hxmem
  · unfold progressTrace
    exact List.getLast?_concat _

/-- Witness for C9 at a concrete source size and cursor stream. -/
theorem C9_progress_reporting_witness :
    (∀ u ∈ progressTrace 200 [some 50, none, some 120],
        u.totalBytes = 200 ∧
        u.percentage = u.bytesProcessed * 100 / 200 ∧
        u.percentage ≤ 100) ∧
    List.Chain' (fun a b => a ≤ b)
      ((progressTrace 200 [some 50, none, some 120]).map (fun u => u.bytesProcessed)) ∧
    (progressTrace 200 [some 50, none, some 120]).getLast? =
      some { bytesProcessed := 200, totalBytes := 200, percentage := 100 } :=
  C9_progress_reporting 200 [some 50, none, some 120] (by decide) (by simp)
    (by decide)

/-! ## Component-state transition (`processFile`) -/

/-- Counterexample to claim C7 as stated: a previously valid non-empty
`monitoringLocations` is overwritten (cleared) by a failed parse, so a
terminal failure does not leave the previously built state untouched. -/
theorem C7_counterexample_failure_overwrites :
    (processFile (fun _ _ => true)
        { records := [[("MonitoringLocationID", "LOC001")]]
          recordsIndex := [("LOC001", [[("MonitoringLocationID", "LOC001")]])]
          monitoringLocations :=
            [{ id := "LOC001", name := "LOC001", displayName := "LOC001 (LOC001)" }]
          result := none
          error := none }
        (Except.error ParseError.emptyInput)).monitoringLocations ≠
      [{ id := "LOC001", name := "LOC001", displayName := "LOC001 (LOC001)" }] := by
  simp [processFile, failedState]

/-- Amended claim C7: every terminal ingestion failure aborts the in-progress
ingestion and clears the held records, index and locations to empty values —
overwriting, not preserving, previously built state — while the `result`
field alone is left as it was. -/
theorem C7_failure_clears_state (nameLe : String → String → Bool)
    (s : ProcessorState) (parseOutcome : Except ParseError (List DataStreamRecord))
    (h : (processFile nameLe s parseOutcome).error.isSome = true) :
    (processFile nameLe s parseOutcome).records = [] ∧
    (processFile nameLe s parseOutcome).recordsIndex = [] ∧
    (processFile nameLe s parseOutcome).monitoringLocations = [] ∧
    (processFile nameLe s parseOutcome).result = s.result := by
  unfold processFile at h ⊢
  cases parseOutcome with
  | error e => simp [failedState]
  | ok parsedRecords =>
    by_cases h0 : parsedRecords.length = 0
    · simp [h0, failedState]
    · simp only [h0, if_false] at h ⊢
      cases hD : getMonitoringLocationsWithNamesFromIndex nameLe
          (indexRecordsByLocation parsedRecords) with
      | none => simp [hD, failedState]
      | some locations =>
        by_cases hl : locations.length = 0
        · simp [hD, hl, failedState]
        · rw [hD] at h
          simp [hl] at h

/-- Witness for the amended C7 at a concrete prior state and a failing
parse. -/
theorem C7_failure_clears_state_witness :
    (processFile (fun _ _ => true)
        { records := [[("MonitoringLocationID", "LOC001")]]
          recordsIndex := [("LOC001", [[("MonitoringLocationID", "LOC001")]])]
          monitoringLocations :=
            [{ id := "LOC001", name := "LOC001", displayName := "LOC001 (LOC001)" }]
          result := none
          error := none }
        (Except.error ParseError.emptyInput)).records = [] ∧
    (processFile (fun _ _ => true)
        { records := [[("MonitoringLocationID", "LOC001")]]
          recordsIndex := [("LOC001", [[("MonitoringLocationID", "LOC001")]])]
          monitoringLocations :=
            [{ id := "LOC001", name := "LOC001", displayName := "LOC001 (LOC001)" }]
          result := none
          error := none }
        (Except.error ParseError.emptyInput)).recordsIndex = [] ∧
    (processFile (fun _ _ => true)
        { records := [[("MonitoringLocationID", "LOC001")]]
          recordsIndex := [("LOC001", [[("MonitoringLocationID", "LOC001")]])]
          monitoringLocations :=
            [{ id := "LOC001", name := "LOC001", displayName := "LOC001 (LOC001)" }]
          result := none
          error := none }
        (Except.error ParseError.emptyInput)).monitoringLocations = [] ∧
    (processFile (fun _ _ => true)
        { records := [[("MonitoringLocationID", "LOC001")]]
          recordsIndex := [("LOC001", [[("MonitoringLocationID", "LOC001")]])]
          monitoringLocations :=
            [{ id := "LOC001", name := "LOC001", displayName := "LOC001 (LOC001)" }]
          result := none
          error := none }
        (Except.error ParseError.emptyInput)).result =
      (none : Option TemperatureResult) :=
  C7_failure_clears_state (fun _ _ => true)
    { records := [[("MonitoringLocationID", "LOC001")]]
      recordsIndex := [("LOC001", [[("MonitoringLocationID", "LOC001")]])]
      monitoringLocations :=
        [{ id := "LOC001", name := "LOC001", displayName := "LOC001 (LOC001)" }]
      result := none
      error := none }
    (Except.error ParseError.emptyInput) rfl

end CsvDatastream
